import Mathlib

/-!
Verification of the FileNavigationSound-Linux monitor
(`src/file_navigation_sound.py`) against its natural-language specification.

The development shallowly embeds the program's pure core:

* the event parser `extract_app_event` (source lines 83-115), including the
  regular-expression fragments it uses (`uint32 (\d+)`, `file://(.*)"`,
  `trash:/(.*)"`), Python substring tests, `str.strip`, `list.index`
  lookahead and `os.path.dirname` normalization;
* the navigation state machine `handle_app_event` (source lines 117-142);
* the inline churn test of `monitor` (source lines 172-176) and the
  variables the churn-triggered restart re-initializes (lines 176-185
  together with the prologue of the re-entered `monitor`, lines 158-164);
* the effect sequence of `main`'s exception handler (source lines 210-214).

Python exceptions are modelled with `Except Unit`: a result of
`Except.error ()` means the Python call raises.  External collaborators
(the filesystem query `os.path.isdir`) are passed in as an oracle
`isDir : String → Bool`.  Machine integers do not occur: Python integers
are unbounded, so `Nat` is exact for the unsigned decimal literals parsed
here.
-/

/-- Pyston-style membership test `needle in hay` restricted to the prefix
position: `listPrefixOf n l` is true iff `n` is a prefix of `l`. -/
def listPrefixOf : List Char → List Char → Bool
  | [], _ => true
  | _ :: _, [] => false
  | a :: s, b :: t => a == b && listPrefixOf s t

/-- Python substring test `n in h` over explicit character lists: true iff
`n` occurs contiguously somewhere in `h`. -/
def listInfixOf (n : List Char) : List Char → Bool
  | [] => listPrefixOf n []
  | c :: rest => listPrefixOf n (c :: rest) || listInfixOf n rest

/-- Python's `needle in hay` on strings. -/
def pyIn (needle hay : String) : Bool :=
  listInfixOf needle.data hay.data

/-- The whitespace characters removed by Python `str.strip()` (ASCII
range, which covers the dbus-monitor output the program reads). -/
def pySpace (c : Char) : Bool :=
  c == ' ' || c == '\t' || c == '\n' || c == '\r' || c == '\x0b' || c == '\x0c'

/-- Python `str.strip()` over a character list. -/
def pyStrip (l : List Char) : List Char :=
  ((l.dropWhile pySpace).reverse.dropWhile pySpace).reverse

/-- Decimal value of a digit run, as produced by Python `int` on the
captured group of `uint32 (\d+)`. -/
def digitsToNat (l : List Char) : Nat :=
  l.foldl (fun n c => n * 10 + (c.toNat - 48)) 0

/-- The literal pattern prefix of the regex `uint32 (\d+)`. -/
def uint32Pat : List Char := "uint32 ".data

/-- Search for the regex `uint32 (\d+)` in a character list, Python
`re.search` semantics: leftmost position where the literal `uint32 ` is
followed by at least one digit wins, and the greedy `\d+` captures the
maximal digit run there. -/
def reUint32Go : List Char → Option Nat
  | [] => none
  | c :: rest =>
    if listPrefixOf uint32Pat (c :: rest) then
      match (c :: rest).drop 7 with
      | d :: ds =>
        if d.isDigit then some (digitsToNat ((d :: ds).takeWhile Char.isDigit))
        else reUint32Go rest
      | [] => reUint32Go rest
    else reUint32Go rest

/-- Source line 95/105/108: `re.search('uint32 (\\d+)', line)` followed by
`int(...)` on the captured group, returning `none` when there is no match. -/
def reUint32 (s : String) : Option Nat :=
  reUint32Go s.data

/-- For the regexes `file://(.*)"` and `trash:/(.*)"`: given the text after
the literal pattern, the greedy group `(.*)` (which cannot cross a newline)
followed by a literal quote captures everything up to the last `"` before
the first newline; `none` when no such quote exists. -/
def beforeLastQuote : List Char → Option (List Char)
  | [] => none
  | c :: rest =>
    match beforeLastQuote rest with
    | some body => some (c :: body)
    | none => if c = '"' then some [] else none

/-- Capture attempt for `pat(.*)"` anchored at the current position. -/
def captureTail (pat : List Char) (l : List Char) : Option (List Char) :=
  beforeLastQuote ((l.drop pat.length).takeWhile (fun ch => ch != '\n'))

/-- Python `re.search('pat(.*)"', s)` over character lists: try every start
position left to right; at the first position where the literal `pat`
matches and a closing quote follows on the same line, return the greedy
capture. -/
def reCaptureGo (pat : List Char) : List Char → Option (List Char)
  | [] => none
  | c :: rest =>
    if listPrefixOf pat (c :: rest) then
      match captureTail pat (c :: rest) with
      | some body => some body
      | none => reCaptureGo pat rest
    else reCaptureGo pat rest

/-- Source lines 99 and 101: `re.search('file://(.*)"', line)` and
`re.search('trash:/(.*)"', line)`, returning the captured group. -/
def reCapture (pat : String) (s : String) : Option (List Char) :=
  reCaptureGo pat.data s.data

/-- Embedding of `posixpath.dirname` (`os.path.dirname` on Linux), used at
source line 113: take the text before the final slash and strip trailing
slashes unless the head consists only of slashes. -/
def dirname (s : String) : String :=
  let p := s.data
  let tailLen := (p.reverse.takeWhile (fun c => c != '/')).length
  if tailLen = p.length then ""
  else
    let head := p.take (p.length - tailLen)
    if head.all (fun c => c == '/') then String.mk head
    else String.mk ((head.reverse.dropWhile (fun c => c == '/')).reverse)

/-- The `app_call` dictionary built by `extract_app_event`
(source lines 85-90).  Field names follow the source; the spec calls the
record `NavigationEvent` with fields `application`, `applicationSequence`,
`targetPath`, `pathSequence`. -/
structure AppCall where
  application : Option String
  app_uint : Option Nat
  file_path : Option String
  file_uint : Option Nat
deriving Repr, DecidableEq

/-- Initial dictionary: every field `None` (source lines 85-90). -/
def initAppCall : AppCall := ⟨none, none, none, none⟩

/-- Python `list.index`: the index of the FIRST occurrence of `x`.  (When
`x` is absent Python raises `ValueError`; this returns the length instead,
which cannot occur in the parser because the looked-up line is always an
element of the list being scanned.) -/
def pyIndexOf (lines : List String) (x : String) : Nat :=
  match lines with
  | [] => 0
  | a :: rest => if a = x then 0 else pyIndexOf rest x + 1

/-- Source expression `lines[lines.index(data_line) + 1]`: the line after
the FIRST occurrence of `data_line`'s text in `lines`; raises `IndexError`
(modelled as `Except.error ()`) when that index is out of range. -/
def nextLineOf (lines : List String) (data_line : String) : Except Unit String :=
  match lines.get? (pyIndexOf lines data_line + 1) with
  | some l => Except.ok l
  | none => Except.error ()

/-- Positional variant used only by the spec-reading of the parser: the
line at index `i + 1`, where `i` is the position of the line being
scanned. -/
def nextLineAt (lines : List String) (i : Nat) : Except Unit String :=
  match lines.get? (i + 1) with
  | some l => Except.ok l
  | none => Except.error ()

/-- Branch classification of one scanned line, mirroring the `if`/`elif`
chain of `extract_app_event` (source lines 93-103): an application-name
line (line 93), a `file://` path line (lines 99, 106), a non-empty
`trash:/` path line (lines 101-104), or a line the loop skips (no `string`
substring, or an empty trash body, line 102-103). -/
inductive LineAction where
  | appLine
  | fileLine (body : List Char)
  | trashLine (body : List Char)
  | skipLine
deriving Repr, DecidableEq

/-- Classify one line exactly as the branch conditions of the source do. -/
def classifyLine (app_name : String) (l : String) : LineAction :=
  if pyIn ("string \"" ++ app_name ++ "\"") l then .appLine
  else if pyIn "string" l then
    match reCapture "file://" l with
    | some body => .fileLine body
    | none =>
      match reCapture "trash:/" l with
      | none => .skipLine
      | some body => if pyStrip body = [] then .skipLine else .trashLine body
  else .skipLine

/-- One iteration of the `for data_line in lines` loop of
`extract_app_event` (source lines 92-110), parameterized by the result of
the `lines[lines.index(data_line) + 1]` lookup.  In the application branch
a failed integer match is non-fatal (guarded `if next_line_match:` at line
96); likewise in the `file://` branch (line 109); in the `trash:/` branch
the source calls `.group(1)` on the raw `re.search` result (line 105), so
a missing integer raises `AttributeError`, modelled as `Except.error`. -/
def scanStepWith (next : Except Unit String) (app_name : String) (ac : AppCall)
    (data_line : String) : Except Unit AppCall :=
  match classifyLine app_name data_line with
  | .appLine =>
    match next with
    | .error e => .error e
    | .ok nl =>
      let ac := { ac with application := some app_name }
      match reUint32 nl with
      | some n => .ok { ac with app_uint := some n }
      | none => .ok ac
  | .fileLine body =>
    let ac := { ac with file_path := some (String.mk (pyStrip body)) }
    match next with
    | .error e => .error e
    | .ok nl =>
      match reUint32 nl with
      | some n => .ok { ac with file_uint := some n }
      | none => .ok ac
  | .trashLine body =>
    let ac := { ac with file_path := some ("trash://" ++ String.mk (pyStrip body)) }
    match next with
    | .error e => .error e
    | .ok nl =>
      match reUint32 nl with
      | some n => .ok { ac with file_uint := some n }
      | none => .error ()
  | .skipLine => .ok ac

/-- One loop iteration as the source executes it: the following line is
looked up through `lines.index(data_line)`, i.e. relative to the first
occurrence of the line's text. -/
def scanStep (app_name : String) (lines : List String) (ac : AppCall)
    (data_line : String) : Except Unit AppCall :=
  scanStepWith (nextLineOf lines data_line) app_name ac data_line

/-- The whole `for` loop of `extract_app_event` over the remaining lines. -/
def scanGo (app_name : String) (lines : List String) :
    List String → AppCall → Except Unit AppCall
  | [], ac => .ok ac
  | l :: rest, ac =>
    match scanStep app_name lines ac l with
    | .error e => .error e
    | .ok ac' => scanGo app_name lines rest ac'

/-- The scanning phase of `extract_app_event` (source lines 85-110). -/
def extract_scan (app_name : String) (lines : List String) : Except Unit AppCall :=
  scanGo app_name lines lines initAppCall

/-- Post-scan normalization (source lines 112-113): a set `file_path` that
the filesystem oracle does not report as a directory is replaced by its
`os.path.dirname`. -/
def normalizePath (isDir : String → Bool) (ac : AppCall) : AppCall :=
  match ac.file_path with
  | some p => if isDir p = false then { ac with file_path := some (dirname p) } else ac
  | none => ac

/-- Full `extract_app_event` (source lines 83-115): scan, then directory
normalization.  `isDir` is the external `os.path.isdir` collaborator. -/
def extract_app_event (isDir : String → Bool) (app_name : String)
    (lines : List String) : Except Unit AppCall :=
  (extract_scan app_name lines).map (normalizePath isDir)

/-- Positional reading of the scan loop, following the spec's words ("the
line immediately following"): identical to `scanGo` except that the
following line is the one at the next index, not the one after the first
occurrence of the current line's text.  Used only to compare against the
source's behavior. -/
def scanPosGo (app_name : String) (lines : List String) :
    List String → Nat → AppCall → Except Unit AppCall
  | [], _, ac => .ok ac
  | l :: rest, i, ac =>
    match scanStepWith (nextLineAt lines i) app_name ac l with
    | .error e => .error e
    | .ok ac' => scanPosGo app_name lines rest (i + 1) ac'

/-- Positional (spec-reading) variant of the scanning phase. -/
def extract_scan_pos (app_name : String) (lines : List String) : Except Unit AppCall :=
  scanPosGo app_name lines lines 0 initAppCall

/-- Positional (spec-reading) variant of the full parser. -/
def extract_app_event_pos (isDir : String → Bool) (app_name : String)
    (lines : List String) : Except Unit AppCall :=
  (extract_scan_pos app_name lines).map (normalizePath isDir)

/-- The three state strings assigned by the source: `"InitialState"`
(line 64), `"SoundPlayedState"` (lines 125, 135), `"WaitingForNewDirState"`
(tested at line 129; never assigned). -/
inductive MachineState where
  | initialState
  | waitingForNewDirState
  | soundPlayedState
deriving Repr, DecidableEq

/-- The mutable pair owned by the state machine: `self.state` and
`self.last_directory` (source lines 64-65); the spec calls it
`MonitorState` with fields `currentState` and `lastDirectory`. -/
structure MonitorSM where
  state : MachineState
  last_directory : Option String
deriving Repr, DecidableEq

/-- Python truthiness of the `application` field at source line 119
(`not event['application']`): `None` and the empty string are falsy. -/
def pyTruthyStr : Option String → Bool
  | none => false
  | some s => !(s == "")

/-- The application filter at source lines 119-120: the event is processed
only when `event['application']` is truthy AND equals `self.app_name`. -/
def appFilterPasses (app_name : String) (e : AppCall) : Bool :=
  pyTruthyStr e.application && (e.application == some app_name)

/-- Embedding of `handle_app_event` (source lines 117-142).  The returned
boolean records whether `play_sound` was called.  Logging is omitted; the
debug flag affects no control flow or state. -/
def handle_app_event (app_name : String) (sm : MonitorSM) (e : AppCall) :
    MonitorSM × Bool :=
  if appFilterPasses app_name e = false then (sm, false)
  else if sm.state = .initialState ∧ e.file_uint = some 3 ∧
      e.file_path ≠ sm.last_directory then
    ({ state := .soundPlayedState, last_directory := e.file_path }, true)
  else if sm.state = .waitingForNewDirState ∧
      (e.file_uint = some 1 ∨ e.file_uint = some 3) ∧
      sm.last_directory ≠ e.file_path then
    ({ state := .soundPlayedState, last_directory := e.file_path }, true)
  else if sm.state = .soundPlayedState then
    ({ state := .initialState, last_directory := sm.last_directory }, false)
  else (sm, false)

/-- Fold of `handle_app_event` over a finite event sequence, starting from
a given machine state; models repeated calls from the monitor loop
(source line 202). -/
def runEvents (app_name : String) (sm : MonitorSM) (events : List AppCall) :
    MonitorSM :=
  events.foldl (fun s e => (handle_app_event app_name s e).1) sm

/-- The inline churn test of `monitor` (source lines 172-176): with
`new_pids = current - known` and `closed_pids = known - current`, churn is
the Python truthiness of `closed_pids or new_pids`, i.e. one of the two
set differences is non-empty. -/
def hasChurn (known current : Finset Nat) : Bool :=
  decide (known \ current ≠ ∅) || decide (current \ known ≠ ∅)

/-- The per-`monitor`-invocation variables of the supervisor loop together
with the machine state the loop mutates: `self.state` and
`self.last_directory` (object fields, lines 64-65), the watchdog baseline
`known_app_pids` (line 160), the one-line lookahead buffer
`cached_method_call` (line 162) and the block accumulator `call_data`
(line 164).  The subprocess handle and the timed sleeps are external
effects and are not part of the state. -/
structure LoopState where
  sm : MonitorSM
  known_app_pids : Finset Nat
  cached_method_call : String
  call_data : List String
deriving DecidableEq

/-- Effect of the churn-triggered restart on the loop state (source lines
176-185): after the settle sleep the subprocess is terminated and
`monitor` is re-entered recursively (line 185, `return await
self.monitor()`).  The re-entered call's prologue (lines 158-164) spawns a
fresh subprocess, takes a fresh PID baseline and re-creates the local
variables `cached_method_call = ""` and `call_data = []`; no statement on
either path assigns `self.state` or `self.last_directory`. -/
def churnRestart (freshPids : Finset Nat) (st : LoopState) : LoopState :=
  { st with
    known_app_pids := freshPids
    cached_method_call := ""
    call_data := [] }

/-- Observable effects of `main`'s exception handler (source lines
210-214), in order: the `logging.error` call, whatever the bare statement
`asyncio.sleep(5)` does, then the recursive `main()` call. -/
inductive MainEffect where
  | logError
  | sleepSeconds (n : Nat)
  | restartMain
deriving Repr, DecidableEq

/-- A Python coroutine object as produced by calling the coroutine
function `asyncio.sleep`: calling it only CONSTRUCTS this value; the delay
would occur only if the coroutine were awaited inside a running event
loop. -/
structure PyCoroutine where
  delay : Nat
deriving Repr, DecidableEq

/-- Calling `asyncio.sleep(n)` returns a coroutine object and has no other
effect. -/
def asyncioSleep (n : Nat) : PyCoroutine := ⟨n⟩

/-- Effects of a bare expression statement whose value is an un-awaited
coroutine (source line 213 is such a statement: `asyncio.sleep(5)` without
`await`, outside any running event loop): the coroutine is discarded and
no effect — in particular no delay — takes place (CPython only emits a
`RuntimeWarning: coroutine was never awaited`). -/
def unawaitedCoroutineEffects (_ : PyCoroutine) : List MainEffect := []

/-- The effect sequence of the `except Exception` branch of `main` (source
lines 210-214): log, evaluate-and-discard `asyncio.sleep(5)`, call
`main()` again. -/
def mainExceptBranchEffects : List MainEffect :=
  [MainEffect.logError] ++ unawaitedCoroutineEffects (asyncioSleep 5) ++
    [MainEffect.restartMain]

theorem listPrefixOf_append_self : ∀ n m : List Char, listPrefixOf n (n ++ m) = true := by
  intro n m
  induction n with
  | nil => rfl
  | cons a s ih => simp [listPrefixOf, ih]

theorem normalizePath_application (isDir : String → Bool) (ac : AppCall) :
    (normalizePath isDir ac).application = ac.application := by
  unfold normalizePath
  split
  · split <;> rfl
  · rfl

/-- C1: the claim says `extract_app_event` is total and never raises, and the
spec's error-handling design says malformed blocks are non-fatal; the code
disagrees: an application-name line or a matched path line that is the last
line of the block makes `lines[lines.index(data_line) + 1]` raise
`IndexError`, and a matched `trash:/` line whose following line carries no
`uint32` argument makes `.group(1)` on a failed `re.search` raise
`AttributeError` (the `file://` branch guards this case, the `trash:/`
branch does not).  Each scenario is evaluated here to `Except.error`. -/
theorem extract_app_event_raises_on_malformed :
    extract_app_event (fun _ => false) "dolphin"
        ["   string \"trash:/f\"", "   boolean true"] = Except.error () ∧
    extract_app_event (fun _ => false) "dolphin"
        ["   string \"dolphin\""] = Except.error () ∧
    extract_app_event (fun _ => false) "dolphin"
        ["   string \"file:///a\""] = Except.error () :=
  ⟨rfl, rfl, rfl⟩

/-- C2 counterexample: the churn-triggered restart does NOT reset the
machine to `{Initial, None}`.  Concretely, restarting from state
`SoundPlayed` with `lastDirectory = "/home/u/Pictures"` leaves both values
in place, refuting the claim at this input. -/
theorem churn_restart_state_not_reset_cex :
    (churnRestart ∅
        ⟨⟨.soundPlayedState, some "/home/u/Pictures"⟩, {41}, "x", []⟩).sm.state ≠
      MachineState.initialState ∧
    (churnRestart ∅
        ⟨⟨.soundPlayedState, some "/home/u/Pictures"⟩, {41}, "x", []⟩).sm.last_directory ≠
      none := by
  decide

/-- C2 amended: the churn-triggered restart re-enters monitoring with a
fresh PID baseline, an empty lookahead buffer and an empty block
accumulator, but `MonitorState` is preserved: `currentState` and
`lastDirectory` keep their pre-churn values, so the restarted pipeline
handles any event exactly as the pre-churn machine would have. -/
theorem churn_restart_preserves_machine :
    ∀ (fresh : Finset Nat) (st : LoopState) (app : String) (e : AppCall),
      handle_app_event app (churnRestart fresh st).sm e =
        handle_app_event app st.sm e ∧
      (churnRestart fresh st).sm = st.sm ∧
      (churnRestart fresh st).known_app_pids = fresh ∧
      (churnRestart fresh st).cached_method_call = "" ∧
      (churnRestart fresh st).call_data = [] := by
  intro fresh st app e
  exact ⟨rfl, rfl, rfl, rfl, rfl⟩

/-- C7: churn is detected exactly when the symmetric difference of the
previous and the current PID set is non-empty; in particular previous
`{1,2}` against current `{1,3}` yields churn and `{1,2}` against `{1,2}`
does not. -/
theorem hasChurn_iff_symm_diff_nonempty :
    (∀ p c : Finset Nat, hasChurn p c = true ↔ symmDiff p c ≠ ∅) ∧
    hasChurn {1, 2} {1, 3} = true ∧ hasChurn {1, 2} {1, 2} = false := by
  refine ⟨fun p c => ?_, by decide, by decide⟩
  rw [hasChurn, symmDiff_def, Finset.sup_eq_union]
  simp only [Bool.or_eq_true, decide_eq_true_eq, ne_eq, Finset.union_eq_empty]
  tauto

/-- C8: on an unhandled fatal error the top-level driver logs and restarts
the monitor, but no backoff delay elapses: line 213 evaluates
`asyncio.sleep(5)` without `await` and outside a running event loop, so the
coroutine is constructed and discarded and the handler's effect sequence
contains no sleep — `main()` is re-entered immediately, contradicting the
claim (and the code's own log message "Restarting in 5 seconds..."). -/
theorem main_error_restart_without_delay :
    mainExceptBranchEffects = [MainEffect.logError, MainEffect.restartMain] ∧
    ∀ n : Nat, MainEffect.sleepSeconds n ∉ mainExceptBranchEffects := by
  refine ⟨rfl, fun n h => ?_⟩
  simp [mainExceptBranchEffects, unawaitedCoroutineEffects] at h

theorem handle_app_event_state_not_waiting (app : String) (sm : MonitorSM)
    (e : AppCall) (h : sm.state ≠ MachineState.waitingForNewDirState) :
    (handle_app_event app sm e).1.state ≠ MachineState.waitingForNewDirState := by
  unfold handle_app_event
  split
  · exact h
  · split
    · simp
    · split
      · simp
      · split
        · simp
        · exact h

theorem runEvents_state_not_waiting (app : String) :
    ∀ (events : List AppCall) (sm : MonitorSM),
      sm.state ≠ MachineState.waitingForNewDirState →
      (runEvents app sm events).state ≠ MachineState.waitingForNewDirState := by
  intro events
  induction events with
  | nil => intro sm h; exact h
  | cons e rest ih =>
      intro sm h
      exact ih (handle_app_event app sm e).1
        (handle_app_event_state_not_waiting app sm e h)

/-- C9: starting from the initial `MonitorState` `{Initial, None}`, no
finite sequence of `handle_app_event` calls can reach
`WaitingForNewDirectory`: the current state is always `Initial` or
`SoundPlayed`, because no transition of `handle_app_event` assigns the
waiting state. -/
theorem waiting_state_unreachable (app : String) (events : List AppCall) :
    (runEvents app ⟨MachineState.initialState, none⟩ events).state =
        MachineState.initialState ∨
    (runEvents app ⟨MachineState.initialState, none⟩ events).state =
        MachineState.soundPlayedState := by
  have h := runEvents_state_not_waiting app events
    ⟨MachineState.initialState, none⟩ (by simp)
  cases hs : (runEvents app ⟨MachineState.initialState, none⟩ events).state
  · exact Or.inl rfl
  · exact absurd hs h
  · exact Or.inr rfl

/-- C5: state-machine cycle.  From `Initial` with any `lastDirectory`, an
event passing the application filter with `pathSequence = 3` and a
`targetPath` different from `lastDirectory` emits a sound and moves to
`SoundPlayed` with `lastDirectory` set to that `targetPath`; any subsequent
event passing the application filter — whatever its path or sequence code —
emits no sound and moves the state back to `Initial`. -/
theorem state_machine_cycle (app : String) (ld : Option String)
    (e1 e2 : AppCall) (h1 : appFilterPasses app e1 = true)
    (h2 : e1.file_uint = some 3) (h3 : e1.file_path ≠ ld)
    (h4 : appFilterPasses app e2 = true) :
    handle_app_event app ⟨MachineState.initialState, ld⟩ e1 =
      (⟨MachineState.soundPlayedState, e1.file_path⟩, true) ∧
    handle_app_event app ⟨MachineState.soundPlayedState, e1.file_path⟩ e2 =
      (⟨MachineState.initialState, e1.file_path⟩, false) := by
  constructor
  · unfold handle_app_event
    simp [h1, h2, h3]
  · unfold handle_app_event
    simp [h4]

/-- C5 witness: the cycle theorem applied to a concrete pair of events. -/
theorem state_machine_cycle_witness :
    handle_app_event "dolphin" ⟨MachineState.initialState, none⟩
        ⟨some "dolphin", some 7, some "/home/u/Pictures", some 3⟩ =
      (⟨MachineState.soundPlayedState, some "/home/u/Pictures"⟩, true) ∧
    handle_app_event "dolphin"
        ⟨MachineState.soundPlayedState, some "/home/u/Pictures"⟩
        ⟨some "dolphin", none, some "/tmp", some 1⟩ =
      (⟨MachineState.initialState, some "/home/u/Pictures"⟩, false) :=
  state_machine_cycle "dolphin" none
    ⟨some "dolphin", some 7, some "/home/u/Pictures", some 3⟩
    ⟨some "dolphin", none, some "/tmp", some 1⟩
    (by decide) (by decide) (by decide) (by decide)

/-- C6: idempotence.  From `Initial`, two consecutive identical qualifying
events (application filter passed, `pathSequence = 3`, `targetPath`
different from the initial `lastDirectory`) emit a sound exactly once, on
the first event only. -/
theorem sound_emitted_once_for_identical_events (app : String)
    (ld : Option String) (e : AppCall) (h1 : appFilterPasses app e = true)
    (h2 : e.file_uint = some 3) (h3 : e.file_path ≠ ld) :
    (handle_app_event app ⟨MachineState.initialState, ld⟩ e).2 = true ∧
    (handle_app_event app
        (handle_app_event app ⟨MachineState.initialState, ld⟩ e).1 e).2 =
      false := by
  have hfst : handle_app_event app ⟨MachineState.initialState, ld⟩ e =
      (⟨MachineState.soundPlayedState, e.file_path⟩, true) := by
    unfold handle_app_event
    simp [h1, h2, h3]
  rw [hfst]
  refine ⟨rfl, ?_⟩
  unfold handle_app_event
  simp [h1]

/-- C6 witness: the idempotence theorem applied to a concrete event. -/
theorem sound_emitted_once_for_identical_events_witness :
    (handle_app_event "dolphin" ⟨MachineState.initialState, none⟩
        ⟨some "dolphin", some 7, some "/home/u/Pictures", some 3⟩).2 = true ∧
    (handle_app_event "dolphin"
        (handle_app_event "dolphin" ⟨MachineState.initialState, none⟩
          ⟨some "dolphin", some 7, some "/home/u/Pictures", some 3⟩).1
        ⟨some "dolphin", some 7, some "/home/u/Pictures", some 3⟩).2 = false :=
  sound_emitted_once_for_identical_events "dolphin" none
    ⟨some "dolphin", some 7, some "/home/u/Pictures", some 3⟩
    (by decide) (by decide) (by decide)

/-- C3 counterexample: a parsed non-empty trash path does NOT keep its
`trash://` scheme prefix in the returned event.  For the block
`["   string \"trash:/foo\"", "   uint32 3"]` with a filesystem oracle
that reports no directory, the scan sets `file_path = "trash://foo"`, but
the post-scan `os.path.dirname` normalization (source lines 112-113)
rewrites it to `"trash:"`, which does not start with `trash://`. -/
theorem trash_scheme_lost_cex :
    extract_app_event (fun _ => false) "dolphin"
        ["   string \"trash:/foo\"", "   uint32 3"] =
      Except.ok ⟨none, none, some "trash:", some 3⟩ ∧
    listPrefixOf "trash://".data "trash:".data = false :=
  ⟨rfl, rfl⟩

/-- C3 amended: a non-empty `trash:/` match sets `file_path`, at that scan
step, to the trimmed body prefixed with `trash://` (which carries the
scheme prefix); the RETURNED event keeps that value — and hence the prefix
— only when the filesystem query reports the prefixed string to be a
directory, since otherwise the post-scan normalization replaces it by its
parent path. -/
theorem trash_scheme_amended :
    (∀ (app_name l : String) (lines : List String) (ac ac' : AppCall)
        (body : List Char),
        classifyLine app_name l = LineAction.trashLine body →
        scanStep app_name lines ac l = Except.ok ac' →
        ac'.file_path = some ("trash://" ++ String.mk (pyStrip body)) ∧
        listPrefixOf "trash://".data
          ("trash://" ++ String.mk (pyStrip body)).data = true) ∧
    (∀ (isDir : String → Bool) (app_name : String) (lines : List String)
        (ac : AppCall) (p : String),
        extract_scan app_name lines = Except.ok ac →
        ac.file_path = some p → isDir p = true →
        extract_app_event isDir app_name lines = Except.ok ac) := by
  constructor
  · intro app l lines ac ac' body hcl hstep
    simp only [scanStep, scanStepWith, hcl] at hstep
    rcases hn : nextLineOf lines l with e | nl
    · simp only [hn] at hstep
      exact absurd hstep (by simp)
    · simp only [hn] at hstep
      rcases hu : reUint32 nl with _ | n
      · simp only [hu] at hstep
        exact absurd hstep (by simp)
      · simp only [hu, Except.ok.injEq] at hstep
        subst hstep
        refine ⟨rfl, ?_⟩
        have hd : ("trash://" ++ String.mk (pyStrip body)).data =
            "trash://".data ++ pyStrip body := rfl
        rw [hd]
        exact listPrefixOf_append_self _ _
  · intro isDir app lines ac p hscan hp hdir
    unfold extract_app_event
    rw [hscan]
    simp only [Except.map]
    have hnp : normalizePath isDir ac = ac := by
      simp only [normalizePath, hp, hdir]
      simp
    rw [hnp]

/-- C3 amended witness: both parts applied at concrete inputs — the trash
step of the block `["   string \"trash:/foo\"", "   uint32 3"]` sets the
prefixed path, and with an all-accepting directory oracle the returned
event keeps it. -/
theorem trash_scheme_amended_witness :
    ((⟨none, none, some "trash://foo", some 3⟩ : AppCall).file_path =
        some ("trash://" ++ String.mk (pyStrip "foo".data)) ∧
      listPrefixOf "trash://".data
        ("trash://" ++ String.mk (pyStrip "foo".data)).data = true) ∧
    extract_app_event (fun _ => true) "dolphin"
        ["   string \"trash:/foo\"", "   uint32 3"] =
      Except.ok ⟨none, none, some "trash://foo", some 3⟩ :=
  ⟨trash_scheme_amended.1 "dolphin" "   string \"trash:/foo\""
      ["   string \"trash:/foo\"", "   uint32 3"] initAppCall
      ⟨none, none, some "trash://foo", some 3⟩ ("foo".data) rfl rfl,
    trash_scheme_amended.2 (fun _ => true) "dolphin"
      ["   string \"trash:/foo\"", "   uint32 3"]
      ⟨none, none, some "trash://foo", some 3⟩ "trash://foo" rfl rfl rfl⟩

theorem scanStep_application_inv (app : String) (lines : List String)
    (ac : AppCall) (l : String) (ac' : AppCall)
    (h : scanStep app lines ac l = Except.ok ac')
    (hac : ac.application = none ∨ ac.application = some app) :
    ac'.application = none ∨ ac'.application = some app := by
  rcases hcl : classifyLine app l with _ | body | body | _ <;>
    simp only [scanStep, scanStepWith, hcl] at h
  · rcases hn : nextLineOf lines l with e | nl
    · simp only [hn] at h
      exact absurd h (by simp)
    · simp only [hn] at h
      rcases hu : reUint32 nl with _ | n <;>
          simp only [hu, Except.ok.injEq] at h <;> subst h
      · exact Or.inr rfl
      · exact Or.inr rfl
  · rcases hn : nextLineOf lines l with e | nl
    · simp only [hn] at h
      exact absurd h (by simp)
    · simp only [hn] at h
      rcases hu : reUint32 nl with _ | n <;>
          simp only [hu, Except.ok.injEq] at h <;> subst h
      · exact hac
      · exact hac
  · rcases hn : nextLineOf lines l with e | nl
    · simp only [hn] at h
      exact absurd h (by simp)
    · simp only [hn] at h
      rcases hu : reUint32 nl with _ | n
      · simp only [hu] at h
        exact absurd h (by simp)
      · simp only [hu, Except.ok.injEq] at h
        subst h
        exact hac
  · simp only [Except.ok.injEq] at h
    subst h
    exact hac

theorem scanGo_application_inv (app : String) (lines : List String) :
    ∀ (suffix : List String) (ac : AppCall),
      ac.application = none ∨ ac.application = some app →
      ∀ ac', scanGo app lines suffix ac = Except.ok ac' →
        ac'.application = none ∨ ac'.application = some app := by
  intro suffix
  induction suffix with
  | nil =>
      intro ac hac ac' h
      simp only [scanGo, Except.ok.injEq] at h
      subst h
      exact hac
  | cons l rest ih =>
      intro ac hac ac' h
      simp only [scanGo] at h
      rcases hs : scanStep app lines ac l with e | ac1
      · simp only [hs] at h
        exact absurd h (by simp)
      · simp only [hs] at h
        exact ih ac1 (scanStep_application_inv app lines ac l ac1 hs hac) ac' h

/-- C10 counterexample: the state machine's equality filter is NOT
equivalent to a mere presence check on parser-produced events.  With the
configured application name set to the empty string, the parser returns an
event whose `application` field is present (`some ""`), yet the filter at
source lines 119-120 rejects it, because Python's truthiness test treats
the empty string as false. -/
theorem application_filter_not_presence_cex :
    extract_app_event (fun _ => false) "" ["   string \"\"", "   uint32 7"] =
      Except.ok ⟨some "", some 7, none, none⟩ ∧
    (⟨some "", some 7, none, none⟩ : AppCall).application ≠ none ∧
    appFilterPasses "" ⟨some "", some 7, none, none⟩ = false :=
  ⟨rfl, by simp, rfl⟩

/-- C10 amended: the `application` field of every event the parser returns
is either `none` or exactly the configured application name; consequently,
PROVIDED the configured name is non-empty, the state machine's filter is
equivalent to a mere presence check (with an empty configured name the
filter also rejects present applications, by Python truthiness). -/
theorem application_field_amended :
    (∀ (isDir : String → Bool) (app_name : String) (lines : List String)
        (ac : AppCall),
        extract_app_event isDir app_name lines = Except.ok ac →
        ac.application = none ∨ ac.application = some app_name) ∧
    (∀ (app_name : String) (e : AppCall), app_name ≠ "" →
        e.application = none ∨ e.application = some app_name →
        (appFilterPasses app_name e = true ↔ e.application ≠ none)) := by
  constructor
  · intro isDir app lines ac h
    unfold extract_app_event at h
    rcases hs : extract_scan app lines with e | ac0
    · rw [hs] at h
      exact absurd h (by simp [Except.map])
    · rw [hs] at h
      simp only [Except.map, Except.ok.injEq] at h
      subst h
      rw [normalizePath_application]
      exact scanGo_application_inv app lines lines initAppCall (Or.inl rfl) ac0 hs
  · intro app e hne hin
    constructor
    · intro hpass
      rcases he : e.application with _ | s
      · rw [appFilterPasses, he] at hpass
        simp [pyTruthyStr] at hpass
      · simp [he]
    · intro hpres
      rcases hin with h0 | h0
      · exact absurd h0 hpres
      · rw [appFilterPasses, h0]
        simp [pyTruthyStr, hne]

/-- C10 amended witness: both parts applied at a concrete block and a
concrete event for the default application name. -/
theorem application_field_amended_witness :
    ((⟨some "dolphin", some 7, none, none⟩ : AppCall).application = none ∨
      (⟨some "dolphin", some 7, none, none⟩ : AppCall).application =
        some "dolphin") ∧
    (appFilterPasses "dolphin" ⟨some "dolphin", some 7, none, none⟩ = true ↔
      (⟨some "dolphin", some 7, none, none⟩ : AppCall).application ≠ none) :=
  ⟨application_field_amended.1 (fun _ => false) "dolphin"
      ["   string \"dolphin\"", "   uint32 7"]
      ⟨some "dolphin", some 7, none, none⟩ rfl,
    application_field_amended.2 "dolphin"
      ⟨some "dolphin", some 7, none, none⟩ (by simp) (Or.inr rfl)⟩

theorem pyIndexOf_append_cons (pre rest : List String) (l : String)
    (h : l ∉ pre) : pyIndexOf (pre ++ l :: rest) l = pre.length := by
  induction pre with
  | nil => simp [pyIndexOf]
  | cons a pre ih =>
      have ha : ¬(a = l) := fun he => h (by rw [he]; exact List.mem_cons_self l pre)
      have h' : l ∉ pre := fun hm => h (List.mem_cons_of_mem a hm)
      simp [pyIndexOf, ha, ih h']

theorem scanGo_eq_pos (app : String) (lines : List String)
    (hnd : lines.Nodup) :
    ∀ (suffix pre : List String) (ac : AppCall), lines = pre ++ suffix →
      scanGo app lines suffix ac = scanPosGo app lines suffix pre.length ac := by
  intro suffix
  induction suffix with
  | nil => intro pre ac _; rfl
  | cons l rest ih =>
      intro pre ac hsplit
      have hnd' : (pre ++ l :: rest).Nodup := hsplit ▸ hnd
      have hl : l ∉ pre := by
        have hd := (List.nodup_append.mp hnd').2.2
        exact fun hmem => hd hmem (List.mem_cons_self l rest)
      have hidx : pyIndexOf lines l = pre.length := by
        rw [hsplit]
        exact pyIndexOf_append_cons pre rest l hl
      have hstep : scanStep app lines ac l =
          scanStepWith (nextLineAt lines pre.length) app ac l := by
        unfold scanStep nextLineOf nextLineAt
        rw [hidx]
      unfold scanGo scanPosGo
      rw [hstep]
      cases h : scanStepWith (nextLineAt lines pre.length) app ac l with
      | error e => rfl
      | ok ac' =>
          dsimp only
          have hrec := ih (pre ++ [l]) ac' (by rw [hsplit]; simp)
          have hlen : (pre ++ [l]).length = pre.length + 1 := by simp
          rw [hlen] at hrec
          exact hrec

/-- C4 counterexample: when an identical copy of the matched path line
occurs earlier in the block, `pathSequence` is NOT taken from the line
immediately following the matched line.  In the block below the second
`file://` line is immediately followed by `uint32 3`, yet the parser
returns `file_uint = none`, because `lines.index(data_line)` finds the
first copy, whose following line carries no integer. -/
theorem path_uint_duplicate_line_cex :
    extract_app_event (fun _ => false) "dolphin"
        ["   string \"file:///a\"", "   x",
          "   string \"file:///a\"", "   uint32 3"] =
      Except.ok ⟨none, none, some "/", none⟩ ∧
    reUint32 "   uint32 3" = some 3 :=
  ⟨rfl, rfl⟩

/-- C4 amended: the integer following a matched path line is read from the
line after the FIRST occurrence of that line's text in the block (the
source indexes with `lines.index(data_line)`).  Hence, whenever the
block's lines are pairwise distinct, the parser agrees with the positional
reading of the spec in which `pathSequence` comes from the line
immediately following the matched line. -/
theorem scan_positional_agreement :
    ∀ (isDir : String → Bool) (app_name : String) (lines : List String),
      lines.Nodup →
      extract_app_event isDir app_name lines =
        extract_app_event_pos isDir app_name lines := by
  intro isDir app lines hnd
  unfold extract_app_event extract_app_event_pos extract_scan extract_scan_pos
  rw [show scanGo app lines lines initAppCall =
      scanPosGo app lines lines (List.length ([] : List String)) initAppCall from
    scanGo_eq_pos app lines hnd lines [] initAppCall rfl]
  rfl

/-- C4 amended witness: on a duplicate-free block — the spec's own
end-to-end example — the parser and its positional reading coincide. -/
theorem scan_positional_agreement_witness :
    extract_app_event (fun _ => true) "dolphin"
        ["method call sender=:1.5 member=RegisterResourceEvent",
          "   string \"dolphin\"", "   uint32 7",
          "   string \"file:///home/u/Pictures\"", "   uint32 3"] =
      extract_app_event_pos (fun _ => true) "dolphin"
        ["method call sender=:1.5 member=RegisterResourceEvent",
          "   string \"dolphin\"", "   uint32 7",
          "   string \"file:///home/u/Pictures\"", "   uint32 3"] :=
  scan_positional_agreement (fun _ => true) "dolphin"
    ["method call sender=:1.5 member=RegisterResourceEvent",
      "   string \"dolphin\"", "   uint32 7",
      "   string \"file:///home/u/Pictures\"", "   uint32 3"]
    (by decide)
